import Mathlib

/-!
Verification development for the experience-replay buffer and training loop of
the DRLPlayground repository.

The training loop (`learn` in `src/dqn/dqn.py`) is embedded from the source.
The replay buffer itself lives in `dqn_utils.py`, which is not part of the
source tree given here; its operations are modelled from the specification
(spec.md sections 3, 4, 7), as marked on each definition.
-/

namespace DRLP

/-- Modelled from the spec: error taxonomy of section 7 for the replay buffer
in `dqn_utils.py` (file not under src/). -/
inductive BufferError where
  | BadCapacity
  | StaleIndex
  | InsufficientData
  | InvalidBatchSize
deriving DecidableEq

/-- Modelled from the spec: buffer state of section 3 for the replay buffer in
`dqn_utils.py` (file not under src/).  Physical storage is one fixed-size
backing list per field; `num_logical` is the monotonic count of `store_frame`
calls (`num_in_buffer_logical` in the spec), and a logical index `i` maps to
physical slot `i % capacity`. -/
structure ReplayBuffer (α : Type) where
  capacity : Nat
  history_len : Nat
  frames : List α
  actions : List Nat
  rewards : List Int
  dones : List Bool
  write_cursor : Nat
  num_filled : Nat
  num_logical : Nat

/-- Modelled from the spec: a freshly constructed buffer (all-zero backing
arrays, cursor and counters at zero). -/
def mkBuffer (α : Type) [Zero α] (cap hist : Nat) : ReplayBuffer α :=
  { capacity := cap
    history_len := hist
    frames := List.replicate cap 0
    actions := List.replicate cap 0
    rewards := List.replicate cap 0
    dones := List.replicate cap false
    write_cursor := 0
    num_filled := 0
    num_logical := 0 }

/-- Modelled from the spec: `construct(capacity, history_len)` fails with
`BadCapacity` when `capacity <= 0` or `history_len < 1` (section 7). -/
def construct (α : Type) [Zero α] (cap hist : Nat) :
    Except BufferError (ReplayBuffer α) :=
  if 0 < cap ∧ 1 ≤ hist then Except.ok (mkBuffer α cap hist)
  else Except.error BufferError.BadCapacity

/-- Modelled from the spec: a logical index is live while it has been written
and `num_in_buffer_logical - i <= capacity` (spec section 3 invariants). -/
def ReplayBuffer.isLive {α : Type} (buf : ReplayBuffer α) (i : Nat) : Bool :=
  decide (i < buf.num_logical) && decide (buf.num_logical - i ≤ buf.capacity)

/-- Modelled from the spec: `store_frame(obs)` writes `obs` at the write
cursor, returns the logical index of the new frame, advances the cursor mod
capacity, bumps `num_filled` up to capacity and the monotonic logical counter
(spec section 4.1). -/
def store_frame {α : Type} (buf : ReplayBuffer α) (obs : α) :
    Nat × ReplayBuffer α :=
  (buf.num_logical,
   { buf with
      frames := buf.frames.set buf.write_cursor obs
      write_cursor := (buf.write_cursor + 1) % buf.capacity
      num_filled := min (buf.num_filled + 1) buf.capacity
      num_logical := buf.num_logical + 1 })

/-- Modelled from the spec: `get_frame(idx)` returns the frame at physical
slot `idx mod capacity` while the index is live, otherwise fails with
`StaleIndex` (spec sections 4.1 and 7). -/
def get_frame {α : Type} [Zero α] (buf : ReplayBuffer α) (idx : Nat) :
    Except BufferError α :=
  if buf.isLive idx then Except.ok (buf.frames.getD (idx % buf.capacity) 0)
  else Except.error BufferError.StaleIndex

/-- Modelled from the spec: `store_effect(idx, action, reward, done)` writes
the effect record for a live index, and fails with `StaleIndex` on an index
that was evicted or never written (spec sections 4.2 and 7). -/
def store_effect {α : Type} (buf : ReplayBuffer α) (idx : Nat) (action : Nat)
    (reward : Int) (done : Bool) : Except BufferError (ReplayBuffer α) :=
  if buf.isLive idx then
    Except.ok
      { buf with
         actions := buf.actions.set (idx % buf.capacity) action
         rewards := buf.rewards.set (idx % buf.capacity) reward
         dones := buf.dones.set (idx % buf.capacity) done }
  else Except.error BufferError.StaleIndex

/-- Frame stored at the physical slot of logical index `i`. -/
def ReplayBuffer.physFrame {α : Type} [Zero α] (buf : ReplayBuffer α)
    (i : Nat) : α :=
  buf.frames.getD (i % buf.capacity) 0

/-- Action field of the effect record at the physical slot of index `i`. -/
def ReplayBuffer.actionAt {α : Type} (buf : ReplayBuffer α) (i : Nat) : Nat :=
  buf.actions.getD (i % buf.capacity) 0

/-- Reward field of the effect record at the physical slot of index `i`. -/
def ReplayBuffer.rewardAt {α : Type} (buf : ReplayBuffer α) (i : Nat) : Int :=
  buf.rewards.getD (i % buf.capacity) 0

/-- Done flag of the effect record at the physical slot of index `i`. -/
def ReplayBuffer.doneAt {α : Type} (buf : ReplayBuffer α) (i : Nat) : Bool :=
  buf.dones.getD (i % buf.capacity) false

/-- Modelled from the spec: the backward walk of the history assembler may
extend from an included slot `c` to slot `c-1` only when `c-1` exists (not
before the first recorded frame), is still live (not overwritten), and does
not carry `done = true` — a true `done` on the slot strictly before the
candidate marks an episode boundary (spec section 4.3 boundary policy). -/
def ReplayBuffer.canExtend {α : Type} (buf : ReplayBuffer α) (c : Nat) : Bool :=
  decide (0 < c) && buf.isLive (c - 1) && !(buf.doneAt (c - 1))

/-- Modelled from the spec: the frames gathered by walking backward from slot
`c`, taking at most `n` frames, oldest first, stopping at the boundaries of
`ReplayBuffer.canExtend` (spec section 4.3). -/
def ReplayBuffer.stackBack {α : Type} [Zero α] (buf : ReplayBuffer α) :
    Nat → Nat → List α
  | _, 0 => []
  | c, 1 => [buf.physFrame c]
  | c, n + 2 =>
    if buf.canExtend c then buf.stackBack (c - 1) (n + 1) ++ [buf.physFrame c]
    else [buf.physFrame c]

/-- Modelled from the spec: `encode_observation(idx, h)` stacks the frames at
`idx, idx-1, ...` (oldest first), zero-padding the remaining oldest positions
so the stack always holds exactly `h` positions (spec section 4.3). -/
def encode_observation {α : Type} [Zero α] (buf : ReplayBuffer α)
    (idx h : Nat) : List α :=
  let s := buf.stackBack idx h
  List.replicate (h - s.length) 0 ++ s

/-- Modelled from the spec: `encode_recent_observation()` is
`encode_observation(last written idx, history_len)` and fails with
`InsufficientData` when fewer than one frame has been stored (spec
sections 4.3 and 7). -/
def encode_recent_observation {α : Type} [Zero α] (buf : ReplayBuffer α) :
    Except BufferError (List α) :=
  if buf.num_filled = 0 then Except.error BufferError.InsufficientData
  else Except.ok (encode_observation buf (buf.num_logical - 1) buf.history_len)

/-- Modelled from the spec: a logical index `i` is a valid transition start
when `i` is live, `i+1` is live, and the physical slot of `i+1` is not the
current write cursor (spec section 4.4 step 1). -/
def ReplayBuffer.validIdx {α : Type} (buf : ReplayBuffer α) (i : Nat) : Bool :=
  buf.isLive i && buf.isLive (i + 1) &&
    decide ((i + 1) % buf.capacity ≠ buf.write_cursor)

/-- The set of valid transition-start indices, as an ascending list. -/
def ReplayBuffer.validIndices {α : Type} (buf : ReplayBuffer α) : List Nat :=
  (List.range buf.num_logical).filter buf.validIdx

/-- Modelled from the spec: `can_sample(batch_size)` is true iff
`num_filled > batch_size` and at least one valid transition pair exists
(spec section 4.4). -/
def can_sample {α : Type} (buf : ReplayBuffer α) (bs : Nat) : Bool :=
  decide (bs < buf.num_filled) && !buf.validIndices.isEmpty

/-- One training transition as returned by the sampler. -/
structure Transition (α : Type) where
  obs_t : List α
  action : Nat
  reward : Int
  obs_tp1 : List α
  done : Bool

/-- Modelled from the spec: the transition assembled for a drawn index `i`
(spec section 4.4 step 2). -/
def mkTransition {α : Type} [Zero α] (buf : ReplayBuffer α) (i : Nat) :
    Transition α :=
  { obs_t := encode_observation buf i buf.history_len
    action := buf.actionAt i
    reward := buf.rewardAt i
    obs_tp1 := encode_observation buf (i + 1) buf.history_len
    done := buf.doneAt i }

/-- Modelled from the spec: `batch_size` indices drawn independently and
uniformly from the valid set; the seeded random stream is modelled by the
function `draws`, draw `j` selecting element `draws j % size` of the valid
set (spec section 4.4 step 1; duplicates across draws are permitted). -/
def sampleIndices {α : Type} (buf : ReplayBuffer α) (bs : Nat)
    (draws : Nat → Nat) : List Nat :=
  (List.range bs).map
    (fun j => buf.validIndices.getD (draws j % buf.validIndices.length) 0)

/-- Modelled from the spec: `sample(n)` fails with `InvalidBatchSize` when
`n <= 0` (here: `n = 0`, batch sizes being naturals) or `can_sample(n)` is
false, and otherwise returns the batch of transitions assembled at the drawn
indices (spec sections 4.4 and 7). -/
def sample {α : Type} [Zero α] (buf : ReplayBuffer α) (bs : Nat)
    (draws : Nat → Nat) : Except BufferError (List (Transition α)) :=
  if bs = 0 ∨ can_sample buf bs = false then
    Except.error BufferError.InvalidBatchSize
  else Except.ok ((sampleIndices buf bs draws).map (mkTransition buf))

/-- Well-formedness of a buffer value: positive capacity and backing lists of
exactly `capacity` slots.  Holds for every buffer produced by `construct` and
preserved by the mutating operations. -/
def ReplayBuffer.WF {α : Type} (buf : ReplayBuffer α) : Prop :=
  0 < buf.capacity ∧ buf.frames.length = buf.capacity ∧
    buf.actions.length = buf.capacity ∧ buf.rewards.length = buf.capacity ∧
    buf.dones.length = buf.capacity

/-- One complete two-phase insertion: `store_frame` then `store_effect` on the
returned index (the index is fresh, so the effect write cannot fail; the
error arm is dead and kept only to total the match). -/
def pushStep {α : Type} [Zero α] (buf : ReplayBuffer α)
    (p : α × Nat × Int × Bool) : ReplayBuffer α :=
  let r := store_frame buf p.1
  match store_effect r.2 r.1 p.2.1 p.2.2.1 p.2.2.2 with
  | Except.ok b => b
  | Except.error _ => r.2

/-- The concrete scenario of spec section 8: capacity 5, history 2, frames
F0..F4 rendered as 10,20,30,40,50, with `done = [0,0,1,0,0]`. -/
def demoBuf : ReplayBuffer Int :=
  [((10 : Int), 0, (0 : Int), false), (20, 0, 0, false), (30, 0, 0, true),
   (40, 0, 0, false), (50, 0, 0, false)].foldl pushStep (mkBuffer Int 5 2)

/-- Repeated `store_frame` calls, discarding the returned indices. -/
def storeFrames {α : Type} (buf : ReplayBuffer α) (l : List α) :
    ReplayBuffer α :=
  l.foldl (fun b o => (store_frame b o).2) buf

/-- A mutating buffer call, for replaying a whole call sequence. -/
inductive BufOp (α : Type) where
  | storeF : α → BufOp α
  | storeE : Nat → Nat → Int → Bool → BufOp α

/-- Replay a sequence of mutating calls against a buffer (a failing
`store_effect` leaves the buffer unchanged). -/
def runOps {α : Type} (buf : ReplayBuffer α) : List (BufOp α) → ReplayBuffer α
  | [] => buf
  | BufOp.storeF o :: rest => runOps (store_frame buf o).2 rest
  | BufOp.storeE i a r d :: rest =>
    runOps
      (match store_effect buf i a r d with
       | Except.ok b => b
       | Except.error _ => buf) rest

/-- The environment collaborator (spec section 6): a deterministic state
machine with gym's `reset` (returning an initial observation) and `step`
(taking an action and returning observation, reward and done flag). -/
structure EnvM (σ α : Type) where
  reset : σ → σ × α
  step : σ → Nat → σ × α × Int × Bool

/-- Static configuration of one run of `learn` (src/dqn/dqn.py).  The seeded
random draws of the exploration policy are modelled by `explore` (whether
step `t` picks a random action, i.e. `random.random() < exploration.value(t)`)
and `randAct` (the random action at step `t`); the trained network behind
`session.run(greedy_action_choice, ...)` is the oracle `greedy`; `draws t`
is the random stream handed to `sample` on step `t`. -/
structure LoopCfg (σ α : Type) where
  E : EnvM σ α
  explore : Nat → Bool
  randAct : Nat → Nat
  greedy : List α → Nat
  learning_starts : Nat
  learning_freq : Nat
  batch_size : Nat
  draws : Nat → Nat → Nat

/-- Mutable state of the training loop across iterations
(src/dqn/dqn.py lines 202-206): environment state, `last_obs`, the replay
buffer, and the `model_initialized` flag. -/
structure LoopState (σ α : Type) where
  env : σ
  last_obs : α
  buffer : ReplayBuffer α
  model_initialized : Bool

/-- One buffer interaction performed by a loop iteration, in call order. -/
inductive Event (α : Type) where
  | storeFrameEv : Nat → α → Event α
  | encodeEv : Except BufferError (List α) → Event α
  | storeEffectEv : Nat → Nat → Int → Bool → Event α
  | sampleEv : Except BufferError (List (Transition α)) → Event α

/-- Whether an event is a `store_frame` call. -/
def isStoreFrameEv {α : Type} : Event α → Bool
  | Event.storeFrameEv _ _ => true
  | _ => false

/-- Whether an event is a `store_effect` call. -/
def isStoreEffectEv {α : Type} : Event α → Bool
  | Event.storeEffectEv _ _ _ _ => true
  | _ => false

/-- Whether an event is a `sample` call. -/
def isSampleEv {α : Type} : Event α → Bool
  | Event.sampleEv _ => true
  | _ => false

/-- The action chosen on step `t` (src/dqn/dqn.py lines 250-257): a random
action when exploring or before the model is initialized, otherwise the
greedy choice on `encode_recent_observation()` of the buffer after this
iteration's `store_frame` (the error arm is dead: the frame was just
stored). -/
def chosenAction {σ α : Type} [Zero α] (C : LoopCfg σ α) (t : Nat)
    (s : LoopState σ α) : Nat :=
  if C.explore t || !s.model_initialized then C.randAct t
  else
    match encode_recent_observation (store_frame s.buffer s.last_obs).2 with
    | Except.ok o => C.greedy o
    | Except.error _ => C.randAct t

/-- The encode events emitted by action selection on step `t`. -/
def encEvents {σ α : Type} [Zero α] (C : LoopCfg σ α) (t : Nat)
    (s : LoopState σ α) : List (Event α) :=
  if C.explore t || !s.model_initialized then []
  else
    [Event.encodeEv
      (encode_recent_observation (store_frame s.buffer s.last_obs).2)]

/-- One iteration of the training loop body (src/dqn/dqn.py lines 245-345):
store `last_obs` (line 248), choose an action (lines 250-257), step the
environment (line 260), store the effect under the index returned by
`store_frame` (line 262), reset the environment when `done` (lines 263-264),
and when `t > learning_starts`, `t % learning_freq == 0` and
`can_sample(batch_size)` all hold (lines 276-278), sample a batch
(line 321) and mark the model initialized (lines 324-332).  Returns the new
loop state and the ordered list of buffer interactions. -/
def stepLoop {σ α : Type} [Zero α] (C : LoopCfg σ α) (t : Nat)
    (s : LoopState σ α) : LoopState σ α × List (Event α) :=
  let idx := s.buffer.num_logical
  let b1 := (store_frame s.buffer s.last_obs).2
  let a := chosenAction C t s
  let res := C.E.step s.env a
  let b2 :=
    match store_effect b1 idx a res.2.2.1 res.2.2.2 with
    | Except.ok b => b
    | Except.error _ => b1
  let doSample := decide (C.learning_starts < t) &&
    decide (t % C.learning_freq = 0) && can_sample b2 C.batch_size
  ({ env := if res.2.2.2 then (C.E.reset res.1).1 else res.1
     last_obs := if res.2.2.2 then (C.E.reset res.1).2 else res.2.1
     buffer := b2
     model_initialized := s.model_initialized || doSample },
   Event.storeFrameEv idx s.last_obs ::
     (encEvents C t s ++ Event.storeEffectEv idx a res.2.2.1 res.2.2.2 ::
       (if doSample then
          [Event.sampleEv (sample b2 C.batch_size (C.draws t))]
        else [])))

/-- Concrete loop configuration used for witnesses and the counterexample:
deterministic environment over `Nat` states, always-exploring policy, and
`batch_size = 0` with `learning_starts = 0`, `learning_freq = 1`. -/
def cCfg : LoopCfg Nat Int :=
  { E := { reset := fun s => (s + 1, 100), step := fun s _ => (s + 1, 7, 1, false) }
    explore := fun _ => true
    randAct := fun _ => 0
    greedy := fun _ => 0
    learning_starts := 0
    learning_freq := 1
    batch_size := 0
    draws := fun _ _ => 0 }

/-- Initial loop state for the concrete runs. -/
def cState0 : LoopState Nat Int :=
  { env := 0, last_obs := 100, buffer := mkBuffer Int 5 2,
    model_initialized := false }

/-- Loop state after iteration `t = 0` of the concrete run. -/
def cState1 : LoopState Nat Int := (stepLoop cCfg 0 cState0).1

/-- The concrete configuration with a positive batch size. -/
def cCfg1 : LoopCfg Nat Int :=
  { cCfg with batch_size := 1 }

/-- Loop state after iteration `t = 0` under `cCfg1`. -/
def cState1b : LoopState Nat Int := (stepLoop cCfg1 0 cState0).1

/-! Helper lemmas. -/

theorem getD_set_self {β : Type} (l : List β) (i : Nat) (x d : β)
    (h : i < l.length) : (l.set i x).getD i d = x := by
  induction l generalizing i with
  | nil => simp at h
  | cons hd tl ih =>
    cases i with
    | zero => rfl
    | succ n => simpa [List.getD] using ih n (by simpa using h)

theorem store_frame_fields {α : Type} (buf : ReplayBuffer α) (obs : α) :
    (store_frame buf obs).1 = buf.num_logical ∧
    (store_frame buf obs).2.capacity = buf.capacity ∧
    (store_frame buf obs).2.num_logical = buf.num_logical + 1 ∧
    (store_frame buf obs).2.num_filled = min (buf.num_filled + 1) buf.capacity ∧
    (store_frame buf obs).2.actions = buf.actions ∧
    (store_frame buf obs).2.rewards = buf.rewards ∧
    (store_frame buf obs).2.dones = buf.dones := by
  simp [store_frame]

theorem store_effect_fresh {α : Type} (buf : ReplayBuffer α) (obs : α)
    (a : Nat) (r : Int) (d : Bool) (hcap : 0 < buf.capacity) :
    store_effect (store_frame buf obs).2 buf.num_logical a r d =
      Except.ok
        { (store_frame buf obs).2 with
           actions := buf.actions.set (buf.num_logical % buf.capacity) a
           rewards := buf.rewards.set (buf.num_logical % buf.capacity) r
           dones := buf.dones.set (buf.num_logical % buf.capacity) d } := by
  have hl : ((store_frame buf obs).2).isLive buf.num_logical = true := by
    simp [store_frame, ReplayBuffer.isLive]
    omega
  simp only [store_effect, hl]
  simp [store_frame]

theorem storeFrames_num_logical {α : Type} (l : List α)
    (buf : ReplayBuffer α) :
    (storeFrames buf l).num_logical = buf.num_logical + l.length := by
  induction l generalizing buf with
  | nil => simp [storeFrames]
  | cons x xs ih =>
    have : storeFrames buf (x :: xs) = storeFrames (store_frame buf x).2 xs := by
      simp [storeFrames]
    rw [this, ih]
    simp [store_frame]
    omega

theorem storeFrames_capacity {α : Type} (l : List α) (buf : ReplayBuffer α) :
    (storeFrames buf l).capacity = buf.capacity := by
  induction l generalizing buf with
  | nil => simp [storeFrames]
  | cons x xs ih =>
    have : storeFrames buf (x :: xs) = storeFrames (store_frame buf x).2 xs := by
      simp [storeFrames]
    rw [this, ih]
    simp [store_frame]

theorem stackBack_structure {α : Type} [Zero α] (buf : ReplayBuffer α) :
    ∀ n c, 0 < n →
      ∃ k, 1 ≤ k ∧ k ≤ n ∧ k - 1 ≤ c ∧
        buf.stackBack c n =
          (List.range k).map (fun j => buf.physFrame (c - (k - 1) + j)) ∧
        ∀ j, j + 1 < k → buf.doneAt (c - (k - 1) + j) = false := by
  intro n
  induction n with
  | zero => intro c h; exact absurd h (by omega)
  | succ m ih =>
    intro c _
    cases m with
    | zero =>
      refine ⟨1, le_refl 1, by omega, by omega, ?_, ?_⟩
      · simp [ReplayBuffer.stackBack, List.range_succ]
      · intro j hj; exact absurd hj (by omega)
    | succ m' =>
      by_cases hce : buf.canExtend c = true
      · have hcpos : 0 < c ∧ buf.doneAt (c - 1) = false := by
          have h' := hce
          simp only [ReplayBuffer.canExtend, Bool.and_eq_true,
            decide_eq_true_eq, Bool.not_eq_true'] at h'
          exact ⟨h'.1.1, h'.2⟩
        obtain ⟨k', hk1, hk2, hk3, hk4, hk5⟩ := ih (c - 1) (by omega)
        have hsub : c - 1 - (k' - 1) = c - k' := by omega
        have hkc : k' ≤ c := by omega
        refine ⟨k' + 1, by omega, by omega, by omega, ?_, ?_⟩
        · have hunf : buf.stackBack c (m' + 2) =
              buf.stackBack (c - 1) (m' + 1) ++ [buf.physFrame c] := by
            simp [ReplayBuffer.stackBack, hce]
          rw [hunf, hk4]
          simp only [hsub]
          rw [List.range_succ, List.map_append]
          simp only [List.map_cons, List.map_nil, Nat.add_sub_cancel]
          have : c - k' + k' = c := by omega
          rw [this]
        · intro j hj
          simp only [Nat.add_sub_cancel]
          by_cases hj2 : j + 1 < k'
          · have h5 := hk5 j hj2
            rw [hsub] at h5
            exact h5
          · have hjeq : j = k' - 1 := by omega
            have : c - k' + j = c - 1 := by omega
            rw [this]
            exact hcpos.2
      · refine ⟨1, le_refl 1, by omega, by omega, ?_, ?_⟩
        · simp [ReplayBuffer.stackBack, hce, List.range_succ]
        · intro j hj; exact absurd hj (by omega)

theorem encode_structure {α : Type} [Zero α] (buf : ReplayBuffer α)
    (idx h : Nat) (hh : 1 ≤ h) :
    ∃ k, 1 ≤ k ∧ k ≤ h ∧ k - 1 ≤ idx ∧
      encode_observation buf idx h =
        List.replicate (h - k) 0 ++
          (List.range k).map (fun j => buf.physFrame (idx - (k - 1) + j)) ∧
      (∀ j, j + 1 < k → buf.doneAt (idx - (k - 1) + j) = false) ∧
      (encode_observation buf idx h).length = h := by
  obtain ⟨k, h1, h2, h3, h4, h5⟩ := stackBack_structure buf h idx hh
  refine ⟨k, h1, h2, h3, ?_, h5, ?_⟩
  · simp [encode_observation, h4]
  · simp [encode_observation, h4]
    omega

/-! Claim theorems. -/

/-- C1: `encode_observation` stops walking backward at an episode boundary
(a slot whose predecessor has `done = true`) and zero-pads the earlier
positions, so no stack mixes frames of two episodes (every non-newest frame
in the stack has `done = false`); in the concrete capacity-5 scenario with
`done = [0,0,1,0,0]`, `encode_observation(2,2) = [F1,F2]`,
`encode_observation(3,2) = [zero,F3]`, `encode_observation(4,2) = [F3,F4]`. -/
theorem claim_c1 :
    (∀ (α : Type) [Zero α] (buf : ReplayBuffer α) (k h : Nat), 1 < h →
        buf.doneAt k = true →
        encode_observation buf (k + 1) h =
          List.replicate (h - 1) 0 ++ [buf.physFrame (k + 1)]) ∧
    (∀ (α : Type) [Zero α] (buf : ReplayBuffer α) (idx h : Nat), 1 ≤ h →
        ∃ k, 1 ≤ k ∧ k ≤ h ∧
          encode_observation buf idx h =
            List.replicate (h - k) 0 ++
              (List.range k).map (fun j => buf.physFrame (idx - (k - 1) + j)) ∧
          ∀ j, j + 1 < k → buf.doneAt (idx - (k - 1) + j) = false) ∧
    encode_observation demoBuf 2 2 = [20, 30] ∧
    encode_observation demoBuf 3 2 = [0, 40] ∧
    encode_observation demoBuf 4 2 = [40, 50] := by
  refine ⟨?_, ?_, by rfl, by rfl, by rfl⟩
  · intro α _ buf k h hh hd
    obtain ⟨m, rfl⟩ : ∃ m, h = m + 2 := ⟨h - 2, by omega⟩
    have hce : buf.canExtend (k + 1) = false := by
      simp [ReplayBuffer.canExtend, hd]
    simp [encode_observation, ReplayBuffer.stackBack, hce]
  · intro α _ buf idx h hh
    obtain ⟨k, h1, h2, _, h4, h5, _⟩ := encode_structure buf idx h hh
    exact ⟨k, h1, h2, h4, h5⟩

/-- Witness for C1 at concrete inputs: slot 2 of the demo buffer has
`done = true`, and the boundary equation holds there with history 3. -/
theorem claim_c1_witness :
    ((1 : Nat) < 3 ∧ demoBuf.doneAt 2 = true ∧
      encode_observation demoBuf 3 3 =
        List.replicate 2 0 ++ [demoBuf.physFrame 3]) ∧
    ((1 : Nat) ≤ 2 ∧ ∃ k, 1 ≤ k ∧ k ≤ 2 ∧
      encode_observation demoBuf 4 2 =
        List.replicate (2 - k) 0 ++
          (List.range k).map (fun j => demoBuf.physFrame (4 - (k - 1) + j)) ∧
      ∀ j, j + 1 < k → demoBuf.doneAt (4 - (k - 1) + j) = false) :=
  ⟨⟨by norm_num, rfl, claim_c1.1 Int demoBuf 2 3 (by norm_num) rfl⟩,
   ⟨by norm_num, claim_c1.2.1 Int demoBuf 4 2 (by norm_num)⟩⟩

/-- C6: for every index and every history length `h ≥ 1`,
`encode_observation(idx, h)` has exactly `h` positions, and all zero-padding
is a prefix (oldest positions) followed by the frames at consecutive slots
ending at `idx` — never interleaved. -/
theorem claim_c6 (α : Type) [Zero α] (buf : ReplayBuffer α) (idx h : Nat)
    (hh : 1 ≤ h) :
    (encode_observation buf idx h).length = h ∧
    ∃ k, 1 ≤ k ∧ k ≤ h ∧
      encode_observation buf idx h =
        List.replicate (h - k) 0 ++
          (List.range k).map (fun j => buf.physFrame (idx - (k - 1) + j)) := by
  obtain ⟨k, h1, h2, _, h4, _, h6⟩ := encode_structure buf idx h hh
  exact ⟨h6, k, h1, h2, h4⟩

/-- Witness for C6 at a concrete input: the demo buffer at index 3 with
history 2. -/
theorem claim_c6_witness :
    (1 : Nat) ≤ 2 ∧ (encode_observation demoBuf 3 2).length = 2 ∧
    ∃ k, 1 ≤ k ∧ k ≤ 2 ∧
      encode_observation demoBuf 3 2 =
        List.replicate (2 - k) 0 ++
          (List.range k).map (fun j => demoBuf.physFrame (3 - (k - 1) + j)) :=
  ⟨by norm_num, (claim_c6 Int demoBuf 3 2 (by norm_num)).1,
   (claim_c6 Int demoBuf 3 2 (by norm_num)).2⟩

/-- C4: after `N > capacity` inserts only the most recent `capacity` logical
indices are live, and `get_frame` / `store_effect` on an evicted or
never-written index fails with `StaleIndex`; in particular a 6th insert into
the capacity-5 buffer evicts index 0 and `get_frame(0)` fails. -/
theorem claim_c4 :
    (∀ (α : Type) [Zero α] (cap hist : Nat) (l : List α) (i : Nat),
        cap < l.length →
        ((storeFrames (mkBuffer α cap hist) l).isLive i = true ↔
          l.length - cap ≤ i ∧ i < l.length) ∧
        ((storeFrames (mkBuffer α cap hist) l).isLive i = false →
          get_frame (storeFrames (mkBuffer α cap hist) l) i =
            Except.error BufferError.StaleIndex ∧
          ∀ a r d, store_effect (storeFrames (mkBuffer α cap hist) l) i a r d =
            Except.error BufferError.StaleIndex)) ∧
    get_frame (storeFrames (mkBuffer Int 5 2) [10, 20, 30, 40, 50, 60]) 0 =
      Except.error BufferError.StaleIndex := by
  refine ⟨?_, by rfl⟩
  intro α _ cap hist l i _
  have hn : (storeFrames (mkBuffer α cap hist) l).num_logical = l.length := by
    rw [storeFrames_num_logical]
    simp [mkBuffer]
  have hc : (storeFrames (mkBuffer α cap hist) l).capacity = cap := by
    rw [storeFrames_capacity]
    simp [mkBuffer]
  constructor
  · simp [ReplayBuffer.isLive, hn, hc]
    omega
  · intro hdead
    refine ⟨?_, ?_⟩
    · simp [get_frame, hdead]
    · intro a r d
      simp [store_effect, hdead]

/-- Witness for C4: six inserts into the capacity-5 buffer; index 0 is not
live, and both read paths fail with `StaleIndex` there. -/
theorem claim_c4_witness :
    (5 : Nat) < 6 ∧
    (storeFrames (mkBuffer Int 5 2) [10, 20, 30, 40, 50, 60]).isLive 0 = false ∧
    get_frame (storeFrames (mkBuffer Int 5 2) [10, 20, 30, 40, 50, 60]) 0 =
      Except.error BufferError.StaleIndex ∧
    store_effect (storeFrames (mkBuffer Int 5 2) [10, 20, 30, 40, 50, 60]) 0 3 7 true =
      Except.error BufferError.StaleIndex :=
  ⟨by norm_num, by rfl,
   ((claim_c4.1 Int 5 2 [10, 20, 30, 40, 50, 60] 0 (by norm_num)).2 (by rfl)).1,
   ((claim_c4.1 Int 5 2 [10, 20, 30, 40, 50, 60] 0 (by norm_num)).2 (by rfl)).2 3 7 true⟩

/-- C8: the buffer and sampler are deterministic — two runs with the same
call sequence and the same seeded draw stream produce identical
`encode_observation` and `sample` outputs. -/
theorem claim_c8 (α : Type) [Zero α] (init : ReplayBuffer α)
    (ops1 ops2 : List (BufOp α)) (idx h bs : Nat) (d1 d2 : Nat → Nat)
    (hops : ops1 = ops2) (hdr : d1 = d2) :
    encode_observation (runOps init ops1) idx h =
      encode_observation (runOps init ops2) idx h ∧
    sample (runOps init ops1) bs d1 = sample (runOps init ops2) bs d2 := by
  subst hops
  subst hdr
  exact ⟨rfl, rfl⟩

/-- Witness for C8 at a concrete call sequence. -/
theorem claim_c8_witness :
    encode_observation (runOps (mkBuffer Int 5 2)
        [BufOp.storeF 10, BufOp.storeE 0 1 2 false]) 0 2 =
      encode_observation (runOps (mkBuffer Int 5 2)
        [BufOp.storeF 10, BufOp.storeE 0 1 2 false]) 0 2 ∧
    sample (runOps (mkBuffer Int 5 2)
        [BufOp.storeF 10, BufOp.storeE 0 1 2 false]) 1 (fun _ => 0) =
      sample (runOps (mkBuffer Int 5 2)
        [BufOp.storeF 10, BufOp.storeE 0 1 2 false]) 1 (fun _ => 0) :=
  claim_c8 Int (mkBuffer Int 5 2)
    [BufOp.storeF 10, BufOp.storeE 0 1 2 false]
    [BufOp.storeF 10, BufOp.storeE 0 1 2 false] 0 2 1
    (fun _ => 0) (fun _ => 0) rfl rfl

theorem mem_validIndices {α : Type} (buf : ReplayBuffer α) (i : Nat) :
    i ∈ buf.validIndices ↔ buf.validIdx i = true := by
  simp only [ReplayBuffer.validIndices, List.mem_filter, List.mem_range]
  constructor
  · exact fun h => h.2
  · intro h
    refine ⟨?_, h⟩
    have h' := h
    simp only [ReplayBuffer.validIdx, ReplayBuffer.isLive, Bool.and_eq_true,
      decide_eq_true_eq] at h'
    exact h'.1.1.1

theorem can_sample_nonempty {α : Type} (buf : ReplayBuffer α) (bs : Nat)
    (h : can_sample buf bs = true) : buf.validIndices ≠ [] := by
  simp only [can_sample, Bool.and_eq_true, Bool.not_eq_true',
    List.isEmpty_eq_false] at h
  exact h.2

theorem getD_mod_mem {l : List Nat} (hl : l ≠ []) (r : Nat) :
    l.getD (r % l.length) 0 ∈ l := by
  have hlen : 0 < l.length := List.length_pos.mpr hl
  have hr : r % l.length < l.length := Nat.mod_lt _ hlen
  rw [List.getD_eq_getElem l 0 hr]
  exact List.getElem_mem hr

theorem validIdx_attainable {α : Type} (buf : ReplayBuffer α) (i : Nat)
    (h : buf.validIdx i = true) :
    ∃ r, buf.validIndices.getD (r % buf.validIndices.length) 0 = i := by
  have hm : i ∈ buf.validIndices := (mem_validIndices buf i).mpr h
  have hlt : List.indexOf i buf.validIndices < buf.validIndices.length :=
    List.indexOf_lt_length.mpr hm
  refine ⟨List.indexOf i buf.validIndices, ?_⟩
  rw [Nat.mod_eq_of_lt hlt, List.getD_eq_getElem _ 0 hlt]
  exact List.getElem_indexOf hlt

/-- C5: when sampling is enabled, `sample` returns the batch assembled at the
drawn indices; every drawn index `i` is live with `i+1` live and `i+1` not on
the write cursor, exactly `batch_size` indices are drawn (independent draws,
duplicates permitted), and every index satisfying those three conditions is
reachable by some draw (the draw is uniform over exactly that set). -/
theorem claim_c5 (α : Type) [Zero α] (buf : ReplayBuffer α) (bs : Nat)
    (draws : Nat → Nat) (hcs : can_sample buf bs = true) (hbs : bs ≠ 0) :
    sample buf bs draws =
      Except.ok ((sampleIndices buf bs draws).map (mkTransition buf)) ∧
    (sampleIndices buf bs draws).length = bs ∧
    (∀ i ∈ sampleIndices buf bs draws,
      buf.isLive i = true ∧ buf.isLive (i + 1) = true ∧
        (i + 1) % buf.capacity ≠ buf.write_cursor) ∧
    (∀ i, buf.isLive i = true → buf.isLive (i + 1) = true →
      (i + 1) % buf.capacity ≠ buf.write_cursor →
      ∃ r, buf.validIndices.getD (r % buf.validIndices.length) 0 = i) := by
  have hne : buf.validIndices ≠ [] := can_sample_nonempty buf bs hcs
  refine ⟨?_, ?_, ?_, ?_⟩
  · simp [sample, hbs, hcs]
  · simp [sampleIndices]
  · intro i hi
    simp only [sampleIndices, List.mem_map, List.mem_range] at hi
    obtain ⟨j, _, hj⟩ := hi
    have hmem : i ∈ buf.validIndices := hj ▸ getD_mod_mem hne (draws j)
    have hv := (mem_validIndices buf i).mp hmem
    simp only [ReplayBuffer.validIdx, Bool.and_eq_true, decide_eq_true_eq] at hv
    exact ⟨hv.1.1, hv.1.2, hv.2⟩
  · intro i h1 h2 h3
    apply validIdx_attainable
    simp [ReplayBuffer.validIdx, h1, h2, h3]

/-- Witness for C5 at a concrete input: the demo buffer can sample a batch of
one, and `sample` succeeds there. -/
theorem claim_c5_witness :
    can_sample demoBuf 1 = true ∧ (1 : Nat) ≠ 0 ∧
    sample demoBuf 1 (fun _ => 0) =
      Except.ok ((sampleIndices demoBuf 1 (fun _ => 0)).map
        (mkTransition demoBuf)) :=
  ⟨rfl, by norm_num, (claim_c5 Int demoBuf 1 (fun _ => 0) rfl (by norm_num)).1⟩

theorem mkBuffer_wf (α : Type) [Zero α] (cap hist : Nat) (h : 0 < cap) :
    (mkBuffer α cap hist).WF := by
  refine ⟨h, ?_, ?_, ?_, ?_⟩ <;> simp [mkBuffer]

theorem filterSF_encEvents {σ α : Type} [Zero α] (C : LoopCfg σ α) (t : Nat)
    (s : LoopState σ α) : (encEvents C t s).filter isStoreFrameEv = [] := by
  rw [encEvents]
  split <;> rfl

theorem filterSE_encEvents {σ α : Type} [Zero α] (C : LoopCfg σ α) (t : Nat)
    (s : LoopState σ α) : (encEvents C t s).filter isStoreEffectEv = [] := by
  rw [encEvents]
  split <;> rfl

theorem stepLoop_buffer_eq (σ α : Type) [Zero α] (C : LoopCfg σ α) (t : Nat)
    (s : LoopState σ α) (hcap : 0 < s.buffer.capacity) :
    (stepLoop C t s).1.buffer =
      { (store_frame s.buffer s.last_obs).2 with
          actions := s.buffer.actions.set
            (s.buffer.num_logical % s.buffer.capacity) (chosenAction C t s)
          rewards := s.buffer.rewards.set
            (s.buffer.num_logical % s.buffer.capacity)
            (C.E.step s.env (chosenAction C t s)).2.2.1
          dones := s.buffer.dones.set
            (s.buffer.num_logical % s.buffer.capacity)
            (C.E.step s.env (chosenAction C t s)).2.2.2 } := by
  simp only [stepLoop]
  rw [store_effect_fresh _ _ _ _ _ hcap]

/-- C2: every loop iteration opens with the `store_frame` of `last_obs`
(src/dqn/dqn.py line 248), and before the next `store_frame` the same
iteration issues exactly one `store_effect`, on exactly the index that
`store_frame` returned (line 262). -/
theorem claim_c2 (σ α : Type) [Zero α] (C : LoopCfg σ α) (t : Nat)
    (s : LoopState σ α) :
    ∃ rest a r d,
      (stepLoop C t s).2 =
        Event.storeFrameEv s.buffer.num_logical s.last_obs :: rest ∧
      rest.filter isStoreFrameEv = [] ∧
      rest.filter isStoreEffectEv =
        [Event.storeEffectEv s.buffer.num_logical a r d] := by
  refine ⟨_, chosenAction C t s, (C.E.step s.env (chosenAction C t s)).2.2.1,
    (C.E.step s.env (chosenAction C t s)).2.2.2, rfl, ?_, ?_⟩
  · rw [List.filter_append, filterSF_encEvents, List.nil_append,
      List.filter_cons]
    simp only [isStoreFrameEv]
    split
    · rename_i hcontra
      exact absurd hcontra (by simp)
    · split <;> rfl
  · rw [List.filter_append, filterSE_encEvents, List.nil_append,
      List.filter_cons]
    simp only [isStoreEffectEv]
    split
    · congr 1
      split <;> rfl
    · rename_i hcontra
      exact absurd trivial hcontra

/-- C3: the effect record stored at the index returned by this iteration's
`store_frame` carries exactly the action chosen after observing that frame,
and the reward and done flag that `env.step` returned for that action
(src/dqn/dqn.py lines 248-262). -/
theorem claim_c3 (σ α : Type) [Zero α] (C : LoopCfg σ α) (t : Nat)
    (s : LoopState σ α) (hwf : s.buffer.WF) :
    (stepLoop C t s).1.buffer.actionAt s.buffer.num_logical =
      chosenAction C t s ∧
    (stepLoop C t s).1.buffer.rewardAt s.buffer.num_logical =
      (C.E.step s.env (chosenAction C t s)).2.2.1 ∧
    (stepLoop C t s).1.buffer.doneAt s.buffer.num_logical =
      (C.E.step s.env (chosenAction C t s)).2.2.2 := by
  obtain ⟨hcap, _, ha, hr, hd⟩ := hwf
  have hmod : s.buffer.num_logical % s.buffer.capacity < s.buffer.capacity :=
    Nat.mod_lt _ hcap
  rw [stepLoop_buffer_eq σ α C t s hcap]
  refine ⟨?_, ?_, ?_⟩
  · simp only [ReplayBuffer.actionAt, store_frame]
    exact getD_set_self _ _ _ _ (by rw [ha]; exact hmod)
  · simp only [ReplayBuffer.rewardAt, store_frame]
    exact getD_set_self _ _ _ _ (by rw [hr]; exact hmod)
  · simp only [ReplayBuffer.doneAt, store_frame]
    exact getD_set_self _ _ _ _ (by rw [hd]; exact hmod)

/-- Witness for C3 at a concrete input: the first iteration of the concrete
run stores the chosen action at index 0. -/
theorem claim_c3_witness :
    cState0.buffer.WF ∧
    (stepLoop cCfg 0 cState0).1.buffer.actionAt cState0.buffer.num_logical =
      chosenAction cCfg 0 cState0 :=
  ⟨mkBuffer_wf Int 5 2 (by norm_num),
   (claim_c3 Nat Int cCfg 0 cState0 (mkBuffer_wf Int 5 2 (by norm_num))).1⟩

/-- C9: the effect stored this iteration carries the `done` flag returned by
`env.step`, and when it is true the loop resets the environment before the
next iteration, so the next `store_frame` (always the head event of the next
iteration, storing the new `last_obs`) stores the initial observation of the
new episode (src/dqn/dqn.py lines 260-264). -/
theorem claim_c9 (σ α : Type) [Zero α] (C : LoopCfg σ α) (t : Nat)
    (s : LoopState σ α) (hwf : s.buffer.WF) :
    (stepLoop C t s).1.buffer.doneAt s.buffer.num_logical =
      (C.E.step s.env (chosenAction C t s)).2.2.2 ∧
    (stepLoop C t s).1.last_obs =
      (if (C.E.step s.env (chosenAction C t s)).2.2.2 then
        (C.E.reset (C.E.step s.env (chosenAction C t s)).1).2
       else (C.E.step s.env (chosenAction C t s)).2.1) ∧
    (stepLoop C t s).1.env =
      (if (C.E.step s.env (chosenAction C t s)).2.2.2 then
        (C.E.reset (C.E.step s.env (chosenAction C t s)).1).1
       else (C.E.step s.env (chosenAction C t s)).1) ∧
    (stepLoop C (t + 1) (stepLoop C t s).1).2.head? =
      some (Event.storeFrameEv (stepLoop C t s).1.buffer.num_logical
        (stepLoop C t s).1.last_obs) := by
  obtain ⟨hcap, _, _, _, hd⟩ := hwf
  have hmod : s.buffer.num_logical % s.buffer.capacity < s.buffer.capacity :=
    Nat.mod_lt _ hcap
  refine ⟨?_, rfl, rfl, rfl⟩
  rw [stepLoop_buffer_eq σ α C t s hcap]
  simp only [ReplayBuffer.doneAt, store_frame]
  exact getD_set_self _ _ _ _ (by rw [hd]; exact hmod)

/-- Witness for C9 at a concrete input: the first iteration of the concrete
run, whose step reports `done = false`. -/
theorem claim_c9_witness :
    cState0.buffer.WF ∧
    (stepLoop cCfg 0 cState0).1.buffer.doneAt cState0.buffer.num_logical =
      (cCfg.E.step cState0.env (chosenAction cCfg 0 cState0)).2.2.2 :=
  ⟨mkBuffer_wf Int 5 2 (by norm_num),
   (claim_c9 Nat Int cCfg 0 cState0 (mkBuffer_wf Int 5 2 (by norm_num))).1⟩

/-- C10: every iteration's first buffer interaction is `store_frame`
(src/dqn/dqn.py line 248), before any `encode_recent_observation`
(line 255), so every encode call sees a buffer holding at least one frame
and succeeds — the `InsufficientData` failure is unreachable from the
loop. -/
theorem claim_c10 (σ α : Type) [Zero α] (C : LoopCfg σ α) (t : Nat)
    (s : LoopState σ α) (hcap : 0 < s.buffer.capacity) :
    (∃ rest, (stepLoop C t s).2 =
        Event.storeFrameEv s.buffer.num_logical s.last_obs :: rest) ∧
    (∀ res, Event.encodeEv res ∈ (stepLoop C t s).2 →
        ∃ o, res = Except.ok o) := by
  refine ⟨⟨_, rfl⟩, ?_⟩
  intro res hres
  have hok : encode_recent_observation (store_frame s.buffer s.last_obs).2 =
      Except.ok (encode_observation (store_frame s.buffer s.last_obs).2
        ((store_frame s.buffer s.last_obs).2.num_logical - 1)
        ((store_frame s.buffer s.last_obs).2.history_len)) := by
    have hnf : ((store_frame s.buffer s.last_obs).2).num_filled ≠ 0 := by
      simp [store_frame]
      omega
    simp [encode_recent_observation, hnf]
  simp only [stepLoop, List.mem_cons, List.mem_append] at hres
  rcases hres with h | h | h | h
  · exact absurd h (by simp)
  · rw [encEvents] at h
    split at h
    · exact absurd h (List.not_mem_nil _)
    · simp only [List.mem_singleton] at h
      injection h with h2
      rw [h2]
      exact ⟨_, hok⟩
  · exact absurd h (by simp)
  · split at h
    · simp only [List.mem_singleton] at h
      exact absurd h (by simp)
    · exact absurd h (List.not_mem_nil _)

/-- Witness for C10 at a concrete input: the first iteration of the concrete
run (positive capacity). -/
theorem claim_c10_witness :
    0 < cState0.buffer.capacity ∧
    ∃ rest, (stepLoop cCfg 0 cState0).2 =
      Event.storeFrameEv cState0.buffer.num_logical cState0.last_obs :: rest :=
  ⟨by decide, (claim_c10 Nat Int cCfg 0 cState0 (by decide)).1⟩

/-- C7 (amended): `sample(n)` fails with `InvalidBatchSize` exactly when
`n = 0` or `can_sample(n)` is false; the loop samples only under the guard
`t > learning_starts ∧ t % learning_freq = 0 ∧ can_sample(batch_size)`
(src/dqn/dqn.py lines 276-278), so for every positive `batch_size` the
failure branch is unreachable from the loop.  (The guard does not exclude
`batch_size = 0`, for which the failure is reachable — see the
counterexample.) -/
theorem claim_c7_amended :
    (∀ (α : Type) [Zero α] (buf : ReplayBuffer α) (bs : Nat)
        (draws : Nat → Nat),
        sample buf bs draws = Except.error BufferError.InvalidBatchSize ↔
          bs = 0 ∨ can_sample buf bs = false) ∧
    (∀ (σ α : Type) [Zero α] (C : LoopCfg σ α) (t : Nat) (s : LoopState σ α),
        0 < C.batch_size →
        ∀ res, Event.sampleEv res ∈ (stepLoop C t s).2 →
          ∃ batch, res = Except.ok batch) := by
  constructor
  · intro α _ buf bs draws
    constructor
    · intro h
      by_cases h1 : bs = 0
      · exact Or.inl h1
      · by_cases h2 : can_sample buf bs = false
        · exact Or.inr h2
        · exfalso
          have h2' : can_sample buf bs = true := by
            cases hcs : can_sample buf bs
            · exact absurd hcs h2
            · rfl
          simp [sample, h1, h2'] at h
    · intro h
      rcases h with h | h <;> simp [sample, h]
  · intro σ α _ C t s hbs res hres
    simp only [stepLoop, List.mem_cons, List.mem_append] at hres
    rcases hres with h | h | h | h
    · exact absurd h (by simp)
    · rw [encEvents] at h
      split at h
      · exact absurd h (List.not_mem_nil _)
      · simp only [List.mem_singleton] at h
        exact absurd h (by simp)
    · exact absurd h (by simp)
    · split at h
      · rename_i hguard
        simp only [List.mem_singleton] at h
        injection h with h2
        have hcs : can_sample
            (match store_effect (store_frame s.buffer s.last_obs).2
                s.buffer.num_logical (chosenAction C t s)
                (C.E.step s.env (chosenAction C t s)).2.2.1
                (C.E.step s.env (chosenAction C t s)).2.2.2 with
             | Except.ok b => b
             | Except.error _ => (store_frame s.buffer s.last_obs).2)
            C.batch_size = true := by
          simp only [Bool.and_eq_true] at hguard
          exact hguard.2
        rw [h2]
        simp [sample, Nat.pos_iff_ne_zero.mp hbs, hcs]
      · exact absurd h (List.not_mem_nil _)

/-- Counterexample to C7 as stated: with `batch_size = 0` the iteration at
`t = 1` of the concrete run passes the guard (`can_sample(0)` is true once
two frames are stored) and its `sample` call fails with `InvalidBatchSize`
— the failure branch is reachable from the loop. -/
theorem claim_c7_counterexample :
    cCfg.batch_size = 0 ∧
    (stepLoop cCfg 1 cState1).2 =
      [Event.storeFrameEv 1 7, Event.storeEffectEv 1 0 1 false,
       Event.sampleEv (Except.error BufferError.InvalidBatchSize)] :=
  ⟨rfl, rfl⟩

/-- Witness for the amended C7: the error characterization at a concrete
buffer, and the positive-batch-size loop conclusion at a concrete run. -/
theorem claim_c7_witness :
    ((sample demoBuf 0 (fun _ => 0) =
        Except.error BufferError.InvalidBatchSize) ↔
      ((0 : Nat) = 0 ∨ can_sample demoBuf 0 = false)) ∧
    (0 : Nat) < 1 ∧
    (∀ res, Event.sampleEv res ∈ (stepLoop cCfg1 1 cState1b).2 →
      ∃ batch, res = Except.ok batch) :=
  ⟨claim_c7_amended.1 Int demoBuf 0 (fun _ => 0), by norm_num,
   claim_c7_amended.2 Nat Int cCfg1 1 cState1b (by decide)⟩

end DRLP
